import Mathlib

/-
  Verification of the capture-detect-transcribe pipeline of the
  speech-to-text repository.

  Shallow embedding of:
  - src/services/recorder.py   (AudioRecorder)
  - src/services/transcription.py (TranscriptionService)
  - src/services/dictionary.py (DictionaryService, the parts reached from
    transcription)
  - src/ui/main_window.py      (MainWindow as the pipeline controller)

  Conventions: Python byte strings are List Nat (each entry a byte value),
  Python str is String or List Char, wall-clock instants are Rat, PyAudio
  streams and files are explicit fields of the state records.
-/

namespace SpeechToText

/- ## Character-list utilities mirroring Python str operations -/

/-- Python s.startswith(p) on explicit character lists. -/
def isPre : List Char → List Char → Bool
  | [], _ => true
  | _ :: _, [] => false
  | a :: as, b :: bs => (a == b) && isPre as bs

/-- Python "p in s" (substring containment) on character lists. -/
def occursB (p : List Char) : List Char → Bool
  | [] => isPre p []
  | c :: cs => isPre p (c :: cs) || occursB p cs

/-- Worker for removeAll, fuelled so that the kernel can evaluate it;
fuel is consumed once per examined position, and a successful match on a
nonempty pattern always consumes at least one character of the input. -/
def removeAllAux (p : List Char) : Nat → List Char → List Char
  | 0, s => s
  | _ + 1, [] => []
  | fuel + 1, c :: cs =>
      if isPre p (c :: cs) then removeAllAux p fuel (List.drop p.length (c :: cs))
      else c :: removeAllAux p fuel cs

/-- Python s.replace(p, "") : delete every non-overlapping occurrence of p,
scanning left to right. -/
def removeAll (p s : List Char) : List Char := removeAllAux p s.length s

/-- The fixed filler list of TranscriptionService.cleanup_text
(src/services/transcription.py line 256). -/
def fillerList : List (List Char) :=
  ["えーと".data, "あー".data, "んー".data, "えっと".data,
   "まぁ".data, "あのー".data, "その".data, "なんか".data]

/-- One iteration of the filler loop of cleanup_text:
cleaned_text.replace(filler + " ", "") then .replace(filler, ""). -/
def cleanupStep (s : List Char) (f : List Char) : List Char :=
  removeAll f (removeAll (f ++ [' ']) s)

/-- TranscriptionService.cleanup_text (src/services/transcription.py
lines 243-270): remove each filler (first followed by a space, then bare),
then remove every remaining ASCII space. -/
def cleanupText (s : List Char) : List Char :=
  removeAll [' '] (fillerList.foldl cleanupStep s)

/- ## Lemmas about the replace model -/

theorem isPre_nil_iff (p : List Char) : isPre p [] = true ↔ p = [] := by
  cases p <;> simp [isPre]

theorem mem_of_isPre {p s : List Char} (h : isPre p s = true) :
    ∀ a ∈ p, a ∈ s := by
  induction p generalizing s with
  | nil => simp
  | cons x xs ih =>
    cases s with
    | nil => simp [isPre] at h
    | cons y ys =>
      simp only [isPre, Bool.and_eq_true, beq_iff_eq] at h
      intro a ha
      rcases List.mem_cons.mp ha with rfl | ha
      · exact h.1 ▸ List.mem_cons_self _ _
      · exact List.mem_cons_of_mem _ (ih h.2 a ha)

theorem mem_of_occursB {p s : List Char} (h : occursB p s = true) :
    ∀ a ∈ p, a ∈ s := by
  induction s with
  | nil =>
    have : p = [] := (isPre_nil_iff p).mp (by simpa [occursB] using h)
    simp [this]
  | cons c cs ih =>
    simp only [occursB, Bool.or_eq_true] at h
    intro a ha
    rcases h with h | h
    · exact mem_of_isPre h a ha
    · exact List.mem_cons_of_mem _ (ih h a ha)

theorem occursB_eq_false_of_not_mem {p s : List Char} {c : Char}
    (hc : c ∈ p) (hs : c ∉ s) : occursB p s = false := by
  cases h : occursB p s with
  | false => rfl
  | true => exact absurd (mem_of_occursB h c hc) hs

theorem removeAllAux_of_not_occurs {p : List Char} (s : List Char)
    (h : occursB p s = false) :
    ∀ fuel, s.length ≤ fuel → removeAllAux p fuel s = s := by
  induction s with
  | nil => intro fuel _; cases fuel <;> rfl
  | cons c cs ih =>
    intro fuel hf
    simp only [occursB, Bool.or_eq_false_iff] at h
    cases fuel with
    | zero => simp at hf
    | succ f =>
      simp only [removeAllAux, h.1, Bool.false_eq_true, if_false]
      rw [ih h.2 f (by simpa using hf)]

theorem removeAll_of_not_occurs {p s : List Char}
    (h : occursB p s = false) : removeAll p s = s :=
  removeAllAux_of_not_occurs s h s.length le_rfl

theorem not_mem_removeAllAux_single (c : Char) :
    ∀ fuel s, s.length ≤ fuel → c ∉ removeAllAux [c] fuel s := by
  intro fuel
  induction fuel with
  | zero =>
    intro s hs
    have : s = [] := List.length_eq_zero.mp (Nat.le_zero.mp hs)
    simp [this, removeAllAux]
  | succ f ih =>
    intro s hs
    cases s with
    | nil => simp [removeAllAux]
    | cons d ds =>
      by_cases hcd : c = d
      · have hpre : isPre [c] (d :: ds) = true := by
          simp [isPre, hcd]
        simp only [removeAllAux, hpre, if_true, List.length_cons,
          List.drop_succ_cons, List.drop_zero]
        exact ih ds (by simpa using hs)
      · have hpre : isPre [c] (d :: ds) = false := by
          simp [isPre, hcd]
        simp only [removeAllAux, hpre, Bool.false_eq_true, if_false,
          List.mem_cons, not_or]
        exact ⟨hcd, ih ds (by simpa using hs)⟩

theorem not_mem_removeAll_single (c : Char) (s : List Char) :
    c ∉ removeAll [c] s :=
  not_mem_removeAllAux_single c s.length s le_rfl

theorem foldl_cleanupStep_id (fs : List (List Char)) (t : List Char)
    (hsp : ' ' ∉ t) (h : ∀ f ∈ fs, occursB f t = false) :
    fs.foldl cleanupStep t = t := by
  induction fs with
  | nil => rfl
  | cons f fs ih =>
    have h1 : occursB (f ++ [' ']) t = false :=
      occursB_eq_false_of_not_mem (by simp) hsp
    have h2 : occursB f t = false := h f (List.mem_cons_self _ _)
    simp only [List.foldl_cons, cleanupStep, removeAll_of_not_occurs h1,
      removeAll_of_not_occurs h2]
    exact ih (fun g hg => h g (List.mem_cons_of_mem _ hg))

/-- Counterexample for claim C10: cleanup_text is not idempotent.  On the
input "ああーー" the first pass deletes the occurrence of the filler "あー"
in the middle, and the two leftover characters join up into a fresh
occurrence of "あー", which a second pass deletes. -/
theorem cleanup_not_idempotent :
    cleanupText (cleanupText "ああーー".data) ≠ cleanupText "ああーー".data := by
  decide

/-- Claim C10 (amended): one pass of cleanup_text removes every ASCII
space, and whenever its output contains no occurrence of any filler token,
a second pass is the identity; idempotence holds exactly on such inputs and
fails in general, because deleting a filler can create a new occurrence by
juxtaposition (see the counterexample). -/
theorem cleanup_second_pass_identity (s : List Char)
    (h : ∀ f ∈ fillerList, occursB f (cleanupText s) = false) :
    cleanupText (cleanupText s) = cleanupText s := by
  have hsp : ' ' ∉ cleanupText s := not_mem_removeAll_single ' ' _
  have hfold : fillerList.foldl cleanupStep (cleanupText s) = cleanupText s :=
    foldl_cleanupStep_id _ _ hsp h
  have hspace : occursB [' '] (cleanupText s) = false :=
    occursB_eq_false_of_not_mem (List.mem_cons_self _ _) hsp
  show removeAll [' '] (fillerList.foldl cleanupStep (cleanupText s))
      = cleanupText s
  rw [hfold, removeAll_of_not_occurs hspace]

/-- Witness for cleanup_second_pass_identity at the concrete input "abc". -/
theorem cleanup_second_pass_identity_w :
    cleanupText (cleanupText "abc".data) = cleanupText "abc".data :=
  cleanup_second_pass_identity "abc".data (by decide)

/- ## 16-bit PCM sample encoding (the byte blocks delivered by the device
and written into the WAV payload by stop_recording) -/

/-- Little-endian two-byte encoding of one 16-bit signed sample (the wire
format of a paInt16 PyAudio stream and of the WAV data chunk). -/
def encSample (s : Int) : List Nat :=
  let u := (s % 65536).toNat
  [u % 256, u / 256]

/-- A device block of samples as the byte string returned by stream.read. -/
def encBlock (b : List Int) : List Nat := (b.map encSample).flatten

/-- Decoding a 16-bit little-endian PCM byte payload back into samples,
as a WAV reader does. -/
def decSamples : List Nat → List Int
  | lo :: hi :: rest =>
      (if lo + 256 * hi < 32768 then (lo + 256 * hi : Int)
       else (lo + 256 * hi : Int) - 65536) :: decSamples rest
  | _ => []

theorem decSamples_encSample (s : Int) (rest : List Nat)
    (h1 : -32768 ≤ s) (h2 : s ≤ 32767) :
    decSamples (encSample s ++ rest) = s :: decSamples rest := by
  have hm : (0 : Int) ≤ s % 65536 := Int.emod_nonneg s (by norm_num)
  have hcast : ((s % 65536).toNat : Int) = s % 65536 := Int.toNat_of_nonneg hm
  have hval : s % 65536 = if s < 0 then s + 65536 else s := by
    split <;> omega
  simp only [encSample, List.cons_append, List.nil_append, decSamples]
  congr 1
  have hrecon : (s % 65536).toNat % 256 + 256 * ((s % 65536).toNat / 256)
      = (s % 65536).toNat := by omega
  rw [hrecon]
  by_cases hs : s < 0
  · have : (s % 65536).toNat = (s + 65536).toNat := by
      rw [hval]; simp [hs]
    rw [this]
    have hge : ¬ ((s + 65536).toNat < 32768) := by omega
    simp only [hge, if_false]
    omega
  · have : (s % 65536).toNat = s.toNat := by
      rw [hval]; simp [hs]
    rw [this]
    have hlt : s.toNat < 32768 := by omega
    simp only [hlt, if_true]
    omega

theorem decSamples_encBlock (b : List Int) (rest : List Nat)
    (h : ∀ s ∈ b, -32768 ≤ s ∧ s ≤ 32767) :
    decSamples (encBlock b ++ rest) = b ++ decSamples rest := by
  induction b with
  | nil => simp [encBlock]
  | cons s ss ih =>
    have hs := h s (List.mem_cons_self _ _)
    have hss : ∀ x ∈ ss, -32768 ≤ x ∧ x ≤ 32767 :=
      fun x hx => h x (List.mem_cons_of_mem _ hx)
    simp only [encBlock, List.map_cons, List.flatten_cons, List.append_assoc]
    rw [decSamples_encSample s _ hs.1 hs.2]
    simpa [encBlock] using ih hss

/- ## The silence signal of record_frame (src/services/recorder.py 152-156)

The source converts the block to a numpy int16 array and computes
  rms = sqrt(mean(audio_data ** 2)); normalized_rms = rms / 32768.0.
Squaring happens in the int16 dtype, so each square is reduced to the
signed 16-bit range by wraparound before the mean is taken.  The float
comparison normalized_rms > threshold is modelled exactly on squares:
for threshold >= 0 (the configured range is 0.001-1.0) it holds iff the
mean of the wrapped squares is nonnegative (a negative mean makes sqrt
return NaN, and NaN > threshold is false) and exceeds threshold^2*32768^2. -/

/-- Reduction of an integer into the signed 16-bit range by wraparound,
as numpy int16 arithmetic does. -/
def wrap16 (x : Int) : Int := (x + 32768) % 65536 - 32768

/-- Mean of the squares as the code computes it (squares taken in int16
with wraparound), as an exact rational. -/
def meanWrapSq (b : List Int) : Rat :=
  ((b.map (fun s => wrap16 (s * s))).sum : Int) / (b.length : Rat)

/-- Mean of the exact squares of the samples (the quantity the spec
describes), as an exact rational. -/
def meanExactSq (b : List Int) : Rat :=
  ((b.map (fun s => s * s)).sum : Int) / (b.length : Rat)

/-- Square of the normalized RMS the code computes for a block. -/
def codeSignalSq (b : List Int) : Rat := meanWrapSq b / (32768 * 32768)

/-- Square of the normalized RMS the spec describes for a block. -/
def specSignalSq (b : List Int) : Rat := meanExactSq b / (32768 * 32768)

/-- The comparison normalized_rms > silence_threshold as the code decides
it (record_frame line 157), stated on squares; thr is the configured
threshold, assumed nonnegative as in the UI range. -/
def isLoud (thr : Rat) (b : List Int) : Bool :=
  decide (0 ≤ meanWrapSq b) && decide (thr * thr * (32768 * 32768) < meanWrapSq b)

/-- The same comparison using the exact squares the spec describes. -/
def specIsLoud (thr : Rat) (b : List Int) : Bool :=
  decide (thr * thr * (32768 * 32768) < meanExactSq b)

/-- Claim C5 (code bug): the silence signal computed by record_frame is
not the exact normalized RMS and does not stay in [0, 1].  Concretely, on
a block holding the single sample 1000 the code squares in int16 and wraps
1000000 to 16960, yielding a normalized-RMS-squared of 16960/2^30 instead
of the exact 1000000/2^30; at the default threshold 0.01 the code treats
the block as silent while the exact RMS 1000/32768 exceeds the threshold.
On a block holding the single sample 182 the wrapped square is negative,
so the code signal even leaves [0, 1] (the float RMS is NaN). -/
theorem rms_int16_overflow :
    codeSignalSq [1000] ≠ specSignalSq [1000] ∧
    codeSignalSq [1000] = 16960 / (32768 * 32768) ∧
    specSignalSq [1000] = 1000000 / (32768 * 32768) ∧
    isLoud (1 / 100) [1000] = false ∧
    specIsLoud (1 / 100) [1000] = true ∧
    codeSignalSq [182] < 0 := by
  have hw : wrap16 1000000 = 16960 := by decide
  have hw2 : wrap16 33124 = -32412 := by decide
  have hm : meanWrapSq [1000] = 16960 := by
    simp [meanWrapSq, hw]
  have hme : meanExactSq [1000] = 1000000 := by
    simp [meanExactSq]
  have hm2 : meanWrapSq [182] = -32412 := by
    simp [meanWrapSq, hw2]
  refine ⟨?_, ?_, ?_, ?_, ?_, ?_⟩
  · simp only [codeSignalSq, specSignalSq, hm, hme]
    norm_num
  · simp only [codeSignalSq, hm]
  · simp only [specSignalSq, hme]
  · have hq : ¬ ((1 / 100 : Rat) * (1 / 100) * (32768 * 32768)
        < meanWrapSq [1000]) := by
      rw [hm]; norm_num
    simp only [isLoud, decide_eq_false hq, Bool.and_false]
  · have hq : (1 / 100 : Rat) * (1 / 100) * (32768 * 32768)
        < meanExactSq [1000] := by
      rw [hme]; norm_num
    simp only [specIsLoud, decide_eq_true hq]
  · simp only [codeSignalSq, hm2]
    norm_num

/- ## AudioRecorder state (src/services/recorder.py) -/

/-- The mutable state of an AudioRecorder instance.  frames holds the
byte blocks appended by record_frame, tempFile the payload of the current
WAV clip on disk (none when no clip file exists). -/
structure RecorderState where
  isRecording : Bool
  streamOpen : Bool
  frames : List (List Nat)
  tempFile : Option (List Nat)
  lastSoundTime : Rat
  silenceDetected : Bool
  silenceThreshold : Rat
  silenceDuration : Rat
deriving DecidableEq

/-- AudioRecorder.start_recording (lines 89-113): refuses when already
recording; otherwise deletes a leftover clip file, resets the frame
buffer, opens the stream, stamps now as last-sound and clears the
silence flag.  Returns the Python boolean result. -/
def startRecording (now : Rat) (st : RecorderState) : Bool × RecorderState :=
  if st.isRecording then (false, st)
  else
    (true,
      { st with
        tempFile := none
        frames := []
        streamOpen := true
        isRecording := true
        lastSoundTime := now
        silenceDetected := false })

/-- AudioRecorder.stop_recording (lines 115-144): returns None untouched
when not recording; otherwise closes the stream, deletes the previous
clip file, joins the buffered blocks into a fresh WAV payload and returns
its path (modelled by the payload itself). -/
def stopRecording (st : RecorderState) : Option (List Nat) × RecorderState :=
  if st.isRecording then
    (some st.frames.flatten,
      { st with
        isRecording := false
        streamOpen := false
        tempFile := some st.frames.flatten })
  else (none, st)

/-- The silence-detection tail of record_frame (lines 152-161): a block
whose normalized RMS exceeds the threshold stamps now as last-sound and
clears the flag; otherwise the flag is set once the elapsed time since
last-sound exceeds the configured duration, and is left alone below it. -/
def recordUpdate (b : List Int) (now : Rat) (st : RecorderState) :
    RecorderState :=
  if isLoud st.silenceThreshold b then
    { st with lastSoundTime := now, silenceDetected := false }
  else if st.silenceDuration < now - st.lastSoundTime then
    { st with silenceDetected := true }
  else st

/-- AudioRecorder.record_frame (lines 146-161): while recording with an
open stream, read one block (given here as its samples, appended as its
byte string), then update the silence state from the block's loudness. -/
def recordFrame (b : List Int) (now : Rat) (st : RecorderState) : RecorderState :=
  if st.isRecording && st.streamOpen then
    recordUpdate b now { st with frames := st.frames ++ [encBlock b] }
  else st

/-- AudioRecorder.is_silence_detected (lines 163-165). -/
def isSilenceDetected (st : RecorderState) : Bool := st.silenceDetected

/-- A capture session: record_frame applied to a trace of
(sample block, wall-clock instant) pairs. -/
def runRecord (trace : List (List Int × Rat)) (st : RecorderState) :
    RecorderState :=
  trace.foldl (fun s p => recordFrame p.1 p.2 s) st

/-- Claim C9: stop_recording on an inactive recorder returns None and
performs no side effect at all: frame buffer, stream, current temp file,
silence state and filesystem are untouched and no clip is produced (the
None return is the NotActive failure of the spec's error taxonomy). -/
theorem stop_inactive_noop (st : RecorderState)
    (h : st.isRecording = false) : stopRecording st = (none, st) := by
  simp [stopRecording, h]

/-- Witness for stop_inactive_noop on a concrete inactive state. -/
theorem stop_inactive_noop_w :
    stopRecording
      { isRecording := false, streamOpen := false,
        frames := [[1, 2]], tempFile := some [7],
        lastSoundTime := 0, silenceDetected := true,
        silenceThreshold := 1 / 100, silenceDuration := 20 }
    = (none,
      { isRecording := false, streamOpen := false,
        frames := [[1, 2]], tempFile := some [7],
        lastSoundTime := 0, silenceDetected := true,
        silenceThreshold := 1 / 100, silenceDuration := 20 }) :=
  stop_inactive_noop _ rfl

/- ## Facts about record_frame and capture sessions -/

theorem recordUpdate_fields (b : List Int) (now : Rat) (st : RecorderState) :
    (recordUpdate b now st).frames = st.frames ∧
    (recordUpdate b now st).isRecording = st.isRecording ∧
    (recordUpdate b now st).streamOpen = st.streamOpen ∧
    (recordUpdate b now st).silenceThreshold = st.silenceThreshold ∧
    (recordUpdate b now st).silenceDuration = st.silenceDuration := by
  simp only [recordUpdate]
  split
  · exact ⟨rfl, rfl, rfl, rfl, rfl⟩
  · split
    · exact ⟨rfl, rfl, rfl, rfl, rfl⟩
    · exact ⟨rfl, rfl, rfl, rfl, rfl⟩

theorem recordFrame_fields (b : List Int) (now : Rat) (st : RecorderState)
    (ha : st.isRecording = true) (hs : st.streamOpen = true) :
    (recordFrame b now st).frames = st.frames ++ [encBlock b] ∧
    (recordFrame b now st).isRecording = true ∧
    (recordFrame b now st).streamOpen = true ∧
    (recordFrame b now st).silenceThreshold = st.silenceThreshold ∧
    (recordFrame b now st).silenceDuration = st.silenceDuration := by
  have hcond : (st.isRecording && st.streamOpen) = true := by
    rw [ha, hs]; rfl
  have hf := recordUpdate_fields b now { st with frames := st.frames ++ [encBlock b] }
  simp only [recordFrame, hcond, if_true]
  exact ⟨hf.1, by rw [hf.2.1]; exact ha, by rw [hf.2.2.1]; exact hs,
    hf.2.2.2.1, hf.2.2.2.2⟩

theorem runRecord_frames (trace : List (List Int × Rat)) :
    ∀ st : RecorderState, st.isRecording = true → st.streamOpen = true →
    (runRecord trace st).frames
        = st.frames ++ trace.map (fun p => encBlock p.1) ∧
    (runRecord trace st).isRecording = true ∧
    (runRecord trace st).streamOpen = true := by
  induction trace with
  | nil => intro st ha hs; exact ⟨by simp [runRecord], ha, hs⟩
  | cons p rest ih =>
    intro st ha hs
    have hx := recordFrame_fields p.1 p.2 st ha hs
    have hrec : runRecord (p :: rest) st
        = runRecord rest (recordFrame p.1 p.2 st) := rfl
    have hrest := ih (recordFrame p.1 p.2 st) hx.2.1 hx.2.2.1
    rw [hrec]
    refine ⟨?_, hrest.2.1, hrest.2.2⟩
    rw [hrest.1, hx.1]
    simp

theorem decSamples_flatten (bs : List (List Int))
    (h : ∀ b ∈ bs, ∀ s ∈ b, -32768 ≤ s ∧ s ≤ 32767) :
    decSamples (bs.map encBlock).flatten = bs.flatten := by
  induction bs with
  | nil => rfl
  | cons b rest ih =>
    have hb := h b (List.mem_cons_self _ _)
    have hrest : ∀ x ∈ rest, ∀ s ∈ x, -32768 ≤ s ∧ s ≤ 32767 :=
      fun x hx => h x (List.mem_cons_of_mem _ hx)
    simp only [List.map_cons, List.flatten_cons]
    rw [decSamples_encBlock b _ hb, ih hrest]

/-- Claim C1: for every capture session (started from any inactive
recorder state, so leftover frames of a previous session are discarded)
and every sequence of record_frame calls while active, the clip finalized
by stop_recording is exactly the concatenation of the pushed byte blocks,
its byte length is the sum of the pushed block lengths, and decoding the
payload returns the pushed sample sequence unchanged. -/
theorem clip_concat_roundtrip
    (st0 : RecorderState) (t0 : Rat) (trace : List (List Int × Rat))
    (h0 : st0.isRecording = false)
    (hrange : ∀ p ∈ trace, ∀ s ∈ p.1, -32768 ≤ s ∧ s ≤ 32767) :
    (stopRecording (runRecord trace (startRecording t0 st0).2)).1
        = some (trace.map (fun p => encBlock p.1)).flatten ∧
    (trace.map (fun p => encBlock p.1)).flatten.length
        = (trace.map (fun p => (encBlock p.1).length)).sum ∧
    decSamples (trace.map (fun p => encBlock p.1)).flatten
        = (trace.map Prod.fst).flatten := by
  have hstart : (startRecording t0 st0).2
      = { st0 with
          tempFile := none, frames := [], streamOpen := true,
          isRecording := true, lastSoundTime := t0,
          silenceDetected := false } := by
    simp [startRecording, h0]
  have hrun := runRecord_frames trace (startRecording t0 st0).2
    (by rw [hstart]) (by rw [hstart])
  have hframes : (runRecord trace (startRecording t0 st0).2).frames
      = trace.map (fun p => encBlock p.1) := by
    rw [hrun.1, hstart]
    simp
  refine ⟨?_, ?_, ?_⟩
  · simp [stopRecording, hrun.2.1, hframes]
  · rw [List.length_flatten, List.map_map]
    rfl
  · have : (trace.map (fun p => encBlock p.1))
        = (trace.map Prod.fst).map encBlock := by
      simp [List.map_map]
    rw [this]
    exact decSamples_flatten _ (by
      intro b hb s hs
      rcases List.mem_map.mp hb with ⟨p, hp, rfl⟩
      exact hrange p hp s hs)

/-- Witness for clip_concat_roundtrip: a concrete two-block session. -/
theorem clip_concat_roundtrip_w :
    (stopRecording (runRecord [([1000, -3], 1), ([0, 259], 2)]
        (startRecording 0
          { isRecording := false, streamOpen := false,
            frames := [[9]], tempFile := some [9],
            lastSoundTime := 0, silenceDetected := true,
            silenceThreshold := 1 / 100, silenceDuration := 20 }).2)).1
        = some ([([1000, -3], (1 : Rat)), ([0, 259], 2)].map
            (fun p => encBlock p.1)).flatten ∧
    ([([1000, -3], (1 : Rat)), ([0, 259], 2)].map
        (fun p => encBlock p.1)).flatten.length
        = ([([1000, -3], (1 : Rat)), ([0, 259], 2)].map
            (fun p => (encBlock p.1).length)).sum ∧
    decSamples ([([1000, -3], (1 : Rat)), ([0, 259], 2)].map
        (fun p => encBlock p.1)).flatten
        = ([([1000, -3], (1 : Rat)), ([0, 259], 2)].map Prod.fst).flatten :=
  clip_concat_roundtrip _ 0 _ rfl (by decide)

/- ## The silence flag as a level (claim C2) -/

/-- The wall-clock instant of the last processed block, or the session
start instant when no block was processed. -/
def lastTime (t0 : Rat) (trace : List (List Int × Rat)) : Rat :=
  trace.foldl (fun _ p => p.2) t0

/-- The instant of the last over-threshold block of the trace, or the
session start instant when there is none. -/
def lastLoudTime (thr t0 : Rat) (trace : List (List Int × Rat)) : Rat :=
  trace.foldl (fun acc p => if isLoud thr p.1 then p.2 else acc) t0

/-- The block instants are nondecreasing, starting from the given one. -/
def TimesMono : Rat → List (List Int × Rat) → Prop
  | _, [] => True
  | cur, p :: rest => cur ≤ p.2 ∧ TimesMono p.2 rest

theorem runRecord_silence_inv (trace : List (List Int × Rat)) :
    ∀ (st : RecorderState) (cur : Rat),
    st.isRecording = true → st.streamOpen = true →
    0 ≤ st.silenceDuration →
    TimesMono cur trace →
    st.lastSoundTime ≤ cur →
    st.silenceDetected = decide (st.silenceDuration < cur - st.lastSoundTime) →
    (runRecord trace st).silenceDetected
        = decide (st.silenceDuration
            < lastTime cur trace - (runRecord trace st).lastSoundTime) ∧
    (runRecord trace st).lastSoundTime
        = lastLoudTime st.silenceThreshold st.lastSoundTime trace ∧
    (runRecord trace st).lastSoundTime ≤ lastTime cur trace := by
  induction trace with
  | nil =>
    intro st cur _ _ _ _ hle hflag
    exact ⟨hflag, rfl, hle⟩
  | cons p rest ih =>
    intro st cur ha hs hdur hmono hle hflag
    have hcond : (st.isRecording && st.streamOpen) = true := by
      rw [ha, hs]; rfl
    have hrec : runRecord (p :: rest) st
        = runRecord rest (recordFrame p.1 p.2 st) := rfl
    have hframe : recordFrame p.1 p.2 st
        = recordUpdate p.1 p.2 { st with frames := st.frames ++ [encBlock p.1] } := by
      simp only [recordFrame, hcond, if_true]
    rw [hrec, hframe]
    by_cases hl : isLoud st.silenceThreshold p.1 = true
    · have hupd : recordUpdate p.1 p.2 { st with frames := st.frames ++ [encBlock p.1] }
          = { st with
              frames := st.frames ++ [encBlock p.1],
              lastSoundTime := p.2,
              silenceDetected := false } := by
        simp [recordUpdate, hl]
      rw [hupd]
      have hres := ih
        { st with
          frames := st.frames ++ [encBlock p.1],
          lastSoundTime := p.2,
          silenceDetected := false }
        p.2 ha hs hdur hmono.2 le_rfl
        (by
          symm
          simp only [decide_eq_false_iff_not, not_lt]
          linarith)
      refine ⟨hres.1, ?_, hres.2.2⟩
      rw [hres.2.1]
      simp [lastLoudTime, hl]
    · have hl' : isLoud st.silenceThreshold p.1 = false :=
        Bool.eq_false_iff.mpr hl
      by_cases ht : st.silenceDuration < p.2 - st.lastSoundTime
      · have hupd : recordUpdate p.1 p.2
            { st with frames := st.frames ++ [encBlock p.1] }
            = { st with
                frames := st.frames ++ [encBlock p.1],
                silenceDetected := true } := by
          simp [recordUpdate, hl', ht]
        rw [hupd]
        have hres := ih
          { st with
            frames := st.frames ++ [encBlock p.1],
            silenceDetected := true }
          p.2 ha hs hdur hmono.2 (le_trans hle hmono.1)
          (decide_eq_true ht).symm
        refine ⟨hres.1, ?_, hres.2.2⟩
        rw [hres.2.1]
        simp [lastLoudTime, hl']
      · have hupd : recordUpdate p.1 p.2
            { st with frames := st.frames ++ [encBlock p.1] }
            = { st with frames := st.frames ++ [encBlock p.1] } := by
          simp [recordUpdate, hl', ht]
        rw [hupd]
        have hold : st.silenceDetected = false := by
          rw [hflag]
          simp only [decide_eq_false_iff_not, not_lt]
          have h1 : cur - st.lastSoundTime ≤ p.2 - st.lastSoundTime := by
            have := hmono.1; linarith
          have h2 : p.2 - st.lastSoundTime ≤ st.silenceDuration :=
            le_of_not_lt ht
          linarith
        have hres := ih
          { st with frames := st.frames ++ [encBlock p.1] }
          p.2 ha hs hdur hmono.2 (le_trans hle hmono.1)
          (by
            show st.silenceDetected
                = decide (st.silenceDuration < p.2 - st.lastSoundTime)
            rw [hold]
            symm
            simp only [decide_eq_false_iff_not, not_lt]
            exact le_of_not_lt ht)
        refine ⟨hres.1, ?_, hres.2.2⟩
        rw [hres.2.1]
        simp [lastLoudTime, hl']

/-- Claim C2: for blocks processed while active, (i) an over-threshold
block stamps now as last-sound and clears the flag; (ii) the flag is
sticky, a non-loud block never clears it; (iii) after any monotone-time
trace the flag is exactly the level "elapsed time since the last
over-threshold block (or session start) exceeds the configured duration";
(iv) last-sound is the instant of the last over-threshold block (or the
session start); (v) is_silence_detected returns exactly the flag. -/
theorem silence_flag_level_semantics
    (st0 : RecorderState) (trace : List (List Int × Rat)) (t0 : Rat)
    (ha : st0.isRecording = true) (hs : st0.streamOpen = true)
    (hdur : 0 ≤ st0.silenceDuration)
    (hls : st0.lastSoundTime = t0) (hsil : st0.silenceDetected = false)
    (hmono : TimesMono t0 trace) :
    (∀ (st : RecorderState) (b : List Int) (now : Rat),
        st.isRecording = true → st.streamOpen = true →
        isLoud st.silenceThreshold b = true →
        (recordFrame b now st).lastSoundTime = now ∧
        (recordFrame b now st).silenceDetected = false) ∧
    (∀ (st : RecorderState) (b : List Int) (now : Rat),
        st.isRecording = true → st.streamOpen = true →
        isLoud st.silenceThreshold b = false →
        st.silenceDetected = true →
        (recordFrame b now st).silenceDetected = true) ∧
    ((runRecord trace st0).silenceDetected
        = decide (st0.silenceDuration
            < lastTime t0 trace - (runRecord trace st0).lastSoundTime)) ∧
    ((runRecord trace st0).lastSoundTime
        = lastLoudTime st0.silenceThreshold t0 trace) ∧
    (∀ st : RecorderState, isSilenceDetected st = st.silenceDetected) := by
  have hinv := runRecord_silence_inv trace st0 t0 ha hs hdur hmono
    (le_of_eq hls)
    (by
      rw [hsil, hls]
      symm
      simp only [decide_eq_false_iff_not, not_lt]
      linarith)
  refine ⟨?_, ?_, hinv.1, by rw [hinv.2.1, hls], fun _ => rfl⟩
  · intro st b now ha' hs' hl
    have hcond : (st.isRecording && st.streamOpen) = true := by
      rw [ha', hs']; rfl
    simp [recordFrame, hcond, recordUpdate, hl]
  · intro st b now ha' hs' hl hsil'
    have hcond : (st.isRecording && st.streamOpen) = true := by
      rw [ha', hs']; rfl
    simp only [recordFrame, hcond, if_true, recordUpdate, hl,
      Bool.false_eq_true, if_false]
    split
    · rfl
    · exact hsil'

/-- A concrete active recorder state used by witnesses. -/
def exActive : RecorderState :=
  { isRecording := true, streamOpen := true, frames := [],
    tempFile := none, lastSoundTime := 0, silenceDetected := false,
    silenceThreshold := 1 / 100, silenceDuration := 20 }

/-- Witness for silence_flag_level_semantics on a concrete session: one
silent block arriving 25 seconds into a 20-second-duration session. -/
theorem silence_flag_level_semantics_w :
    ((runRecord [([0], 25)] exActive).silenceDetected
        = decide (exActive.silenceDuration
            < lastTime 0 [([0], 25)]
              - (runRecord [([0], 25)] exActive).lastSoundTime)) ∧
    ((runRecord [([0], 25)] exActive).lastSoundTime
        = lastLoudTime exActive.silenceThreshold 0 [([0], 25)]) :=
  ⟨(silence_flag_level_semantics exActive [([0], 25)] 0 rfl rfl
      (by norm_num [exActive]) rfl rfl
      (by simp only [TimesMono]; norm_num)).2.2.1,
    (silence_flag_level_semantics exActive [([0], 25)] 0 rfl rfl
      (by norm_num [exActive]) rfl rfl
      (by simp only [TimesMono]; norm_num)).2.2.2.1⟩

/- ## The stop path against the capture worker (claim C3)

MainWindow.stop_recording (src/ui/main_window.py 335-356) clears
is_recording and immediately calls recorder.stop_recording; it never
joins recording_thread.  The worker loop (358-383) repeats: test
MainWindow.is_recording, then record_frame, which tests the recorder
guard, performs the blocking stream.read, and appends the block.  The
two threads interleave freely between these atomic points. -/

/-- Combined state of the controller's stop path and the capture worker.
wpc: 0 = worker about to test MainWindow.is_recording (line 374),
1 = worker about to run the record_frame guard followed by the blocking
stream.read (recorder.py 148-149), 2 = worker holding the block it just
read, about to append it to frames (recorder.py 150), 3 = worker exited.
cpc: 0 = controller about to clear is_recording (line 338), 1 = about to
call recorder.stop_recording (line 347, modelled as one step), 2 = done.
Blocks are abstract ids; appendAfterClip is a ghost bit set when an
append executes after the clip has been finalized. -/
structure RaceState where
  mainRec : Bool
  recActive : Bool
  streamOpen : Bool
  frames : List Nat
  clip : Option (List Nat)
  pending : Option Nat
  nextId : Nat
  wpc : Nat
  cpc : Nat
  appendAfterClip : Bool
deriving DecidableEq

/-- One step of the capture worker. -/
def workerStep (st : RaceState) : RaceState :=
  if st.wpc = 0 then
    if st.mainRec then { st with wpc := 1 } else { st with wpc := 3 }
  else if st.wpc = 1 then
    if st.recActive && st.streamOpen then
      { st with pending := some st.nextId, nextId := st.nextId + 1, wpc := 2 }
    else { st with wpc := 0 }
  else if st.wpc = 2 then
    match st.pending with
    | some i =>
        { st with
          frames := st.frames ++ [i]
          pending := none
          wpc := 0
          appendAfterClip := st.appendAfterClip || st.clip.isSome }
    | none => { st with wpc := 0 }
  else st

/-- One step of the controller's stop path (the recorder stop itself is
one atomic step: clear the active flag, close the stream, finalize the
clip from the frames present at that instant). -/
def ctrlStep (st : RaceState) : RaceState :=
  if st.cpc = 0 then { st with mainRec := false, cpc := 1 }
  else if st.cpc = 1 then
    if st.recActive then
      { st with
        recActive := false
        streamOpen := false
        clip := some st.frames
        cpc := 2 }
    else { st with cpc := 2 }
  else st

/-- Run a schedule; true schedules the worker, false the controller. -/
def raceRun (sched : List Bool) (st : RaceState) : RaceState :=
  sched.foldl (fun s w => if w then workerStep s else ctrlStep s) st

/-- The state at the instant the user's stop request arrives: session
capturing, worker at the top of its loop, controller entering the stop
path. -/
def raceInit : RaceState :=
  { mainRec := true, recActive := true, streamOpen := true, frames := [],
    clip := none, pending := none, nextId := 0, wpc := 0, cpc := 0,
    appendAfterClip := false }

/-- Claim C3 (code bug): stop_recording never joins recording_thread, so
there is an interleaving in which the worker completes the blocking
stream.read inside record_frame, the controller then clears the flag and
finalizes the clip, and the worker appends its block to the frame buffer
after finalization: the block is lost from the clip and the buffer is
mutated after the clip was written, refuting the claimed ordering. -/
theorem stop_without_join_race :
    (raceRun [true, true, false, false, true] raceInit).appendAfterClip
        = true ∧
    (raceRun [true, true, false, false, true] raceInit).clip = some [] ∧
    (raceRun [true, true, false, false, true] raceInit).frames = [0] := by
  refine ⟨by decide, by decide, by decide⟩

/- ## Controller re-entrancy (claim C7) -/

/-- The controller state touched by MainWindow.start_recording and
stop_recording, with ghost bits recording whether a capture worker or a
transcription worker was spawned by the call. -/
structure CtrlState where
  isRecording : Bool
  isProcessing : Bool
  recorder : RecorderState
  workerStarted : Bool
  transcribing : Bool
  buttonLabel : String
  status : String
  progressVisible : Bool
deriving DecidableEq

/-- MainWindow.start_recording (src/ui/main_window.py 325-333): guarded
by not is_recording and not is_processing; inside the guard it sets the
flag, updates the UI and spawns the recording worker. -/
def startRecordingUI (st : CtrlState) : CtrlState :=
  if !st.isRecording && !st.isProcessing then
    { st with
      isRecording := true
      workerStarted := true
      buttonLabel := "録音停止"
      status := "録音中..." }
  else st

/-- MainWindow.stop_recording (src/ui/main_window.py 335-356): guarded by
is_recording; inside the guard it clears the flag, updates the UI, stops
the recorder, and on a clip starts the transcription worker
(start_transcription, lines 397-412). -/
def stopRecordingUI (st : CtrlState) : CtrlState :=
  if st.isRecording then
    match stopRecording st.recorder with
    | (some _, r) =>
        { st with
          isRecording := false
          buttonLabel := "録音開始"
          recorder := r
          progressVisible := true
          isProcessing := true
          transcribing := true
          status := "文字起こし中..." }
    | (none, r) =>
        { st with
          isRecording := false
          buttonLabel := "録音開始"
          recorder := r
          progressVisible := false
          status := "録音ファイルの取得に失敗しました" }
  else st

/-- Claim C7: start_recording while already capturing or while a
transcription is still processing is a no-op (no state change, no worker
spawned), and stop_recording while not capturing is a no-op. -/
theorem reentrancy_noop (st : CtrlState) :
    (st.isRecording = true ∨ st.isProcessing = true →
        startRecordingUI st = st) ∧
    (st.isRecording = false → stopRecordingUI st = st) := by
  constructor
  · intro h
    rcases h with h | h <;> simp [startRecordingUI, h]
  · intro h
    simp [stopRecordingUI, h]

/-- A concrete capturing controller state. -/
def exBusy : CtrlState :=
  { isRecording := true, isProcessing := false, recorder := exActive,
    workerStarted := true, transcribing := false,
    buttonLabel := "録音停止", status := "録音中...",
    progressVisible := false }

/-- A concrete idle controller state. -/
def exIdle : CtrlState :=
  { isRecording := false, isProcessing := false, recorder := exActive,
    workerStarted := false, transcribing := false,
    buttonLabel := "録音開始", status := "準備完了",
    progressVisible := false }

/-- Witness for reentrancy_noop on concrete states. -/
theorem reentrancy_noop_w :
    startRecordingUI exBusy = exBusy ∧ stopRecordingUI exIdle = exIdle :=
  ⟨(reentrancy_noop exBusy).1 (Or.inl rfl), (reentrancy_noop exIdle).2 rfl⟩

/- ## The silence monitor (claim C6) -/

/-- Events of one Capturing session as seen by the monitor: tick is a
firing of the 1-second QTimer driving MainWindow.check_silence
(src/ui/main_window.py 385-388); userStop is the user's stop click;
setFlag and clearFlag are the capture worker's updates of the recorder's
silence flag. -/
inductive MonEvent
  | tick
  | userStop
  | setFlag
  | clearFlag
deriving DecidableEq

/-- Monitor-visible state of a session: is_recording, the silence flag,
how many cancellation signals were emitted, how many times
is_silence_detected was read, and a ghost bit set when the flag became
true during the session. -/
structure MonState where
  recording : Bool
  flag : Bool
  emits : Nat
  flagReads : Nat
  flagEverTrue : Bool
deriving DecidableEq

/-- One event.  check_silence reads is_silence_detected only behind the
is_recording test; the silence_detected signal has a direct (same-thread)
connection, so an emission synchronously runs handle_silence_detection
(lines 390-395), whose stop_recording clears is_recording before
check_silence can run again. -/
def monStep (st : MonState) : MonEvent → MonState
  | MonEvent.tick =>
      if st.recording then
        if st.flag then
          { st with
            flagReads := st.flagReads + 1
            emits := st.emits + 1
            recording := false }
        else { st with flagReads := st.flagReads + 1 }
      else st
  | MonEvent.userStop => { st with recording := false }
  | MonEvent.setFlag =>
      if st.recording then { st with flag := true, flagEverTrue := true }
      else st
  | MonEvent.clearFlag =>
      if st.recording then { st with flag := false } else st

def monRun (st : MonState) (es : List MonEvent) : MonState :=
  es.foldl monStep st

/-- Session start: capturing, flag clear, nothing emitted yet. -/
def monInit : MonState :=
  { recording := true, flag := false, emits := 0, flagReads := 0,
    flagEverTrue := false }

theorem monStep_frozen (st : MonState) (h : st.recording = false)
    (e : MonEvent) : monStep st e = st := by
  obtain ⟨r, f, em, fr, fe⟩ := st
  change r = false at h
  subst h
  cases e <;> simp [monStep]

theorem monRun_frozen (es : List MonEvent) :
    ∀ st : MonState, st.recording = false → monRun st es = st := by
  induction es with
  | nil => intro st _; rfl
  | cons e es ih =>
    intro st h
    have h1 : monRun st (e :: es) = monRun (monStep st e) es := rfl
    rw [h1, monStep_frozen st h e, ih st h]

theorem monRun_emits_inv (es : List MonEvent) :
    ∀ st : MonState,
    (st.recording = true → st.emits = 0) → st.emits ≤ 1 →
    ((monRun st es).recording = true → (monRun st es).emits = 0) ∧
    (monRun st es).emits ≤ 1 := by
  induction es with
  | nil => intro st h0 h1; exact ⟨h0, h1⟩
  | cons e es ih =>
    intro st h0 h1
    have h2 : monRun st (e :: es) = monRun (monStep st e) es := rfl
    rw [h2]
    apply ih
    · cases e with
      | tick =>
        by_cases hr : st.recording = true
        · by_cases hf : st.flag = true
          · intro hc
            exfalso
            simp [monStep, hr, hf] at hc
          · simp only [monStep, hr, if_true]
            rw [Bool.eq_false_iff.mpr hf]
            intro _
            simp only [Bool.false_eq_true, if_false]
            exact h0 hr
        · rw [monStep_frozen st (Bool.eq_false_iff.mpr hr)]
          exact h0
      | userStop => intro hc; simp [monStep] at hc
      | setFlag =>
        by_cases hr : st.recording = true
        · simp only [monStep, hr, if_true]
          intro _
          exact h0 hr
        · rw [monStep_frozen st (Bool.eq_false_iff.mpr hr)]
          exact h0
      | clearFlag =>
        by_cases hr : st.recording = true
        · simp only [monStep, hr, if_true]
          intro _
          exact h0 hr
        · rw [monStep_frozen st (Bool.eq_false_iff.mpr hr)]
          exact h0
    · cases e with
      | tick =>
        by_cases hr : st.recording = true
        · by_cases hf : st.flag = true
          · have : st.emits = 0 := h0 hr
            simp [monStep, hr, hf, this]
          · simp only [monStep, hr, if_true]
            rw [Bool.eq_false_iff.mpr hf]
            simp only [Bool.false_eq_true, if_false]
            exact h1
        · rw [monStep_frozen st (Bool.eq_false_iff.mpr hr)]
          exact h1
      | userStop => simpa [monStep] using h1
      | setFlag =>
        by_cases hr : st.recording = true
        · simp only [monStep, hr, if_true]
          exact h1
        · rw [monStep_frozen st (Bool.eq_false_iff.mpr hr)]
          exact h1
      | clearFlag =>
        by_cases hr : st.recording = true
        · simp only [monStep, hr, if_true]
          exact h1
        · rw [monStep_frozen st (Bool.eq_false_iff.mpr hr)]
          exact h1

/-- Counterexample for claim C6: a session in which the silence flag
becomes true but the user stops the recording before the next 1-second
poll ends with zero cancellation signals, so "never zero" fails. -/
theorem silence_cancel_can_be_zero :
    (monRun monInit [MonEvent.setFlag, MonEvent.userStop]).flagEverTrue
        = true ∧
    (monRun monInit [MonEvent.setFlag, MonEvent.userStop]).emits = 0 := by
  refine ⟨by decide, by decide⟩

/-- Claim C6 (amended): the monitor emits at most one cancellation signal
per Capturing session; and if a poll tick fires while the session is
still Capturing with the silence flag set, then exactly one cancellation
is emitted, the session leaves Capturing at once, and no further reads of
is_silence_detected happen for the rest of the session.  "Exactly one
whenever the flag becomes true" fails only when the session ends before
the next poll observes the flag (see the counterexample). -/
theorem silence_cancel_at_most_once (p q : List MonEvent) :
    (monRun monInit (p ++ q)).emits ≤ 1 ∧
    ((monRun monInit p).recording = true → (monRun monInit p).flag = true →
      (monRun monInit (p ++ MonEvent.tick :: q)).emits = 1 ∧
      (monRun monInit (p ++ MonEvent.tick :: q)).recording = false ∧
      (monRun monInit (p ++ MonEvent.tick :: q)).flagReads
          = (monRun monInit p).flagReads + 1) := by
  have happ : ∀ (a b : List MonEvent) (st : MonState),
      monRun st (a ++ b) = monRun (monRun st a) b := by
    intro a b st
    simp [monRun, List.foldl_append]
  constructor
  · rw [happ]
    have hp := monRun_emits_inv p monInit (fun _ => rfl) (by decide)
    exact (monRun_emits_inv q (monRun monInit p) hp.1 hp.2).2
  · intro hr hf
    have hp := monRun_emits_inv p monInit (fun _ => rfl) (by decide)
    have he0 : (monRun monInit p).emits = 0 := hp.1 hr
    have hsplit : monRun monInit (p ++ MonEvent.tick :: q)
        = monRun (monStep (monRun monInit p) MonEvent.tick) q := by
      rw [happ]
      rfl
    have htick : monStep (monRun monInit p) MonEvent.tick
        = { monRun monInit p with
            flagReads := (monRun monInit p).flagReads + 1
            emits := (monRun monInit p).emits + 1
            recording := false } := by
      simp [monStep, hr, hf]
    have hfrozen : monRun (monStep (monRun monInit p) MonEvent.tick) q
        = monStep (monRun monInit p) MonEvent.tick := by
      apply monRun_frozen
      rw [htick]
    rw [hsplit, hfrozen, htick]
    exact ⟨by simp [he0], rfl, rfl⟩

/-- Witness for silence_cancel_at_most_once: the flag is set and the next
tick fires the single cancellation. -/
theorem silence_cancel_at_most_once_w :
    (monRun monInit ([MonEvent.setFlag] ++ [])).emits ≤ 1 ∧
    (monRun monInit ([MonEvent.setFlag] ++ MonEvent.tick :: [])).emits = 1 ∧
    (monRun monInit
        ([MonEvent.setFlag] ++ MonEvent.tick :: [])).recording = false ∧
    (monRun monInit ([MonEvent.setFlag] ++ MonEvent.tick :: [])).flagReads
        = (monRun monInit [MonEvent.setFlag]).flagReads + 1 :=
  ⟨(silence_cancel_at_most_once [MonEvent.setFlag] []).1,
    (silence_cancel_at_most_once [MonEvent.setFlag] []).2
      (by decide) (by decide)⟩

/- ## TranscriptionService (claims C4 and C8) -/

/-- The common-name list of PriorityManager (src/services/dictionary.py
line 137). -/
def commonNames : List String :=
  ["田中", "佐藤", "山田", "高橋", "渡辺", "東京", "大阪", "名古屋"]

/-- PriorityManager.calculate_auto_priority (src/services/dictionary.py
lines 117-132); the reading argument is ignored by the source body.  The
Nat subtraction models max(0, 5 - len(display)). -/
def calcAutoPriority (display : String) (usage : Nat) : Nat :=
  let base := 50
  let freq := min (usage * 3) 30
  let common :=
    if commonNames.any (fun n => occursB n.data display.data) then 10 else 0
  let lenBonus := 5 - display.length
  max 1 (min 100 (base + freq + common + lenBonus))

/-- One dictionary entry; the wall-clock bookkeeping fields (last_used,
updated_at, created_at) are omitted, no claim depends on them. -/
structure DictEntry where
  reading : String
  display : String
  usageCount : Nat
  priority : Nat
deriving DecidableEq

/-- DictionaryEntry.update_usage (lines 63-67) followed by the priority
recalculation of update_entry_usage (lines 297-301). -/
def bumpEntry (e : DictEntry) : DictEntry :=
  { e with
    usageCount := e.usageCount + 1
    priority := calcAutoPriority e.display (e.usageCount + 1) }

/-- The scan-and-break of update_entry_usage: bump the first entry of the
list whose display matches. -/
def bumpFirst : List DictEntry → String → List DictEntry
  | [], _ => []
  | e :: es, disp =>
      if e.display = disp then bumpEntry e :: es
      else e :: bumpFirst es disp

/-- Stable insertion into a priority-descending list; Python list.sort
with reverse=True is a stable descending sort by the key. -/
def insertDesc (x : DictEntry) : List DictEntry → List DictEntry
  | [] => [x]
  | y :: ys =>
      if y.priority < x.priority then x :: y :: ys
      else y :: insertDesc x ys

def sortDesc : List DictEntry → List DictEntry
  | [] => []
  | x :: xs => insertDesc x (sortDesc xs)

/-- The dictionary service state reached from transcription: the enabled
switch, the insertion-ordered reading-to-entries map, and the persisted
dictionary file (none before the first save). -/
structure DictState where
  enabled : Bool
  entries : List (String × List DictEntry)
  savedEntries : Option (List (String × List DictEntry))
deriving DecidableEq

/-- DictionaryService.update_entry_usage (lines 292-305): when the
reading is present, bump the first display match in its list and re-sort
that list by priority, descending. -/
def updateEntryUsage (d : DictState) (reading display : String) : DictState :=
  { d with
    entries := d.entries.map (fun kv =>
      if kv.1 = reading then (kv.1, sortDesc (bumpFirst kv.2 display))
      else kv) }

/-- DictionaryService.get_all_entries (lines 269-274). -/
def getAllEntries (d : DictState) : List DictEntry :=
  (d.entries.map Prod.snd).flatten

/-- TranscriptionService._update_dictionary_usage (lines 297-321): when
the dictionary is enabled, snapshot all entries, bump the usage of each
whose display occurs in the transcribed text, then save the dictionary. -/
def updateDictUsage (d : DictState) (text : String) : DictState :=
  if d.enabled then
    let d1 := (getAllEntries d).foldl
      (fun acc e =>
        if occursB e.display.data text.data then
          updateEntryUsage acc e.reading e.display
        else acc) d
    { d1 with savedEntries := some d1.entries }
  else d

/-- The failure classification of the spec, as a ghost tag naming which
branch of the except handler (or the empty-response branch) produced the
returned message; the code itself returns only the message string. -/
inductive ErrKind
  | serviceOverloaded
  | rateLimited
  | unauthorized
  | emptyResponse
  | other
deriving DecidableEq

def overloadedMsg : String :=
  "Gemini APIのサーバーが混雑しています。しばらく時間をおいて再度お試しください。"

def rateLimitedMsg : String :=
  "APIの利用制限に達しました。しばらく時間をおいて再度お試しください。"

def unauthorizedMsg : String :=
  "APIキーが無効です。APIキーの設定を確認してください。"

def errPre : String := "文字起こし中にエラーが発生しました"

def emptyResponseMsg : String := "文字起こしに失敗しました。レスポンスが空です。"

def readyMsg : String := "準備完了"

/-- The except branch of TranscriptionService.transcribe_audio
(src/services/transcription.py lines 214-226), together with the ghost
branch tag. -/
def classifyException (m : String) : ErrKind × String :=
  if occursB "503".data m.data && occursB "overloaded".data m.data then
    (ErrKind.serviceOverloaded, overloadedMsg)
  else if occursB "429".data m.data then
    (ErrKind.rateLimited, rateLimitedMsg)
  else if occursB "401".data m.data then
    (ErrKind.unauthorized, unauthorizedMsg)
  else
    (ErrKind.other, errPre ++ ": " ++ m)

/-- Python str.strip() for the whitespace a response text can carry. -/
def isWs (c : Char) : Bool :=
  c = ' ' || c = '\t' || c = '\n' || c = '\r'

def stripChars (s : List Char) : List Char :=
  ((s.dropWhile isWs).reverse.dropWhile isWs).reverse

/-- The remote call's outcome: the response text (empty models a falsy
model.text) or the exception message of a transport error. -/
inductive ApiResponse
  | ok : String → ApiResponse
  | exn : String → ApiResponse
deriving DecidableEq

structure TranscribeOut where
  text : String
  dict : DictState
deriving DecidableEq

/-- TranscriptionService.transcribe_audio (lines 159-241) given the
remote response: a transport exception returns the classified message
and touches nothing; a nonempty response is stripped, cleaned, returned,
and the dictionary usage is updated; an empty response returns a fixed
failure message.  The clip bytes, prompt and model name only shape the
outgoing request and do not affect this outcome. -/
def transcribeAudio (d : DictState) (resp : ApiResponse) : TranscribeOut :=
  match resp with
  | ApiResponse.exn m => { text := (classifyException m).2, dict := d }
  | ApiResponse.ok t =>
      if t = "" then { text := emptyResponseMsg, dict := d }
      else
        { text := String.mk (cleanupText (stripChars t.data))
          dict := updateDictUsage d
            (String.mk (cleanupText (stripChars t.data))) }

/-- MainWindow.transcription_worker's result discrimination (line 422):
only results starting with the Other-branch prefix are treated as
errors. -/
def isErrorResult (s : String) : Bool := isPre errPre.data s.data

/-- What MainWindow.transcription_worker (lines 414-434) does with a
result: which status/completion events it emits, and the processing flag
and status it leaves behind (the finally block always clears the flag
and restores the ready status). -/
structure WorkerOut where
  erroredStatus : Option String
  completed : Option String
  processingAfter : Bool
  finalStatus : String
deriving DecidableEq

def transcriptionWorker (result : String) : WorkerOut :=
  if isErrorResult result then
    { erroredStatus := some result, completed := none,
      processingAfter := false, finalStatus := readyMsg }
  else
    { erroredStatus := none, completed := some result,
      processingAfter := false, finalStatus := readyMsg }

/-- Counterexample for claim C4: the ServiceOverloaded outcome is not a
tagged failure distinguishable from success text.  transcribe_audio
returns a plain message string; the controller's only failure test (the
Other-branch prefix check) does not recognize it, and the controller
surfaces it through the success (completion) event. -/
theorem overloaded_result_untagged :
    (classifyException "503 UNAVAILABLE: The model is overloaded.").1
        = ErrKind.serviceOverloaded ∧
    (classifyException "503 UNAVAILABLE: The model is overloaded.").2
        = overloadedMsg ∧
    isErrorResult overloadedMsg = false ∧
    (transcriptionWorker overloadedMsg).completed = some overloadedMsg ∧
    (transcriptionWorker overloadedMsg).erroredStatus = none := by
  refine ⟨by decide, by decide, by decide, by decide, by decide⟩

/-- Claim C4 (amended): a transport error whose message contains both
"503" and "overloaded" takes the ServiceOverloaded branch of the
classification (whose branches realize the fixed set ServiceOverloaded,
RateLimited, Unauthorized, EmptyResponse, Other at the message level),
and transcribe_audio returns that branch's fixed message string without
touching any state; the result is a plain string, not a tagged failure
(the controller routes it through the completion event, see the
counterexample), and the controller still clears the processing flag and
returns to the ready state. -/
theorem overloaded_classified_reaches_ready (d : DictState) (m : String)
    (h1 : occursB "503".data m.data = true)
    (h2 : occursB "overloaded".data m.data = true) :
    classifyException m = (ErrKind.serviceOverloaded, overloadedMsg) ∧
    transcribeAudio d (ApiResponse.exn m)
        = { text := overloadedMsg, dict := d } ∧
    (transcriptionWorker
        (transcribeAudio d (ApiResponse.exn m)).text).processingAfter
        = false ∧
    (transcriptionWorker
        (transcribeAudio d (ApiResponse.exn m)).text).finalStatus
        = readyMsg ∧
    (transcriptionWorker
        (transcribeAudio d (ApiResponse.exn m)).text).completed
        = some overloadedMsg := by
  have hcls : classifyException m = (ErrKind.serviceOverloaded, overloadedMsg) := by
    simp [classifyException, h1, h2]
  have htr : transcribeAudio d (ApiResponse.exn m)
      = { text := overloadedMsg, dict := d } := by
    simp [transcribeAudio, hcls]
  have hworker : transcriptionWorker overloadedMsg
      = { erroredStatus := none, completed := some overloadedMsg,
          processingAfter := false, finalStatus := readyMsg } := by
    have : isErrorResult overloadedMsg = false := by decide
    simp [transcriptionWorker, this]
  refine ⟨hcls, htr, ?_, ?_, ?_⟩ <;> rw [htr] <;> rw [hworker]

/-- A concrete dictionary entry used by witnesses and counterexamples. -/
def exEntry : DictEntry :=
  { reading := "とうきょう", display := "東京", usageCount := 0,
    priority := 63 }

/-- A concrete enabled dictionary holding exEntry. -/
def exDict : DictState :=
  { enabled := true, entries := [("とうきょう", [exEntry])],
    savedEntries := none }

/-- Witness for overloaded_classified_reaches_ready on a concrete
message. -/
theorem overloaded_classified_reaches_ready_w :
    classifyException "503 UNAVAILABLE: overloaded"
        = (ErrKind.serviceOverloaded, overloadedMsg) ∧
    transcribeAudio exDict (ApiResponse.exn "503 UNAVAILABLE: overloaded")
        = { text := overloadedMsg, dict := exDict } ∧
    (transcriptionWorker
        (transcribeAudio exDict
          (ApiResponse.exn "503 UNAVAILABLE: overloaded")).text).processingAfter
        = false ∧
    (transcriptionWorker
        (transcribeAudio exDict
          (ApiResponse.exn "503 UNAVAILABLE: overloaded")).text).finalStatus
        = readyMsg ∧
    (transcriptionWorker
        (transcribeAudio exDict
          (ApiResponse.exn "503 UNAVAILABLE: overloaded")).text).completed
        = some overloadedMsg :=
  overloaded_classified_reaches_ready exDict "503 UNAVAILABLE: overloaded"
    (by decide) (by decide)

/-- Counterexample for claim C8: transcribe_audio does mutate state
beyond reading the clip.  On a successful response whose text contains a
dictionary entry's display form, it bumps that entry's usage count and
saves the dictionary, so the dictionary store is left changed. -/
theorem transcribe_mutates_dictionary :
    (transcribeAudio exDict (ApiResponse.ok "東京です")).dict ≠ exDict := by
  decide

/-- Claim C8 (amended): the text transcribe_audio returns is a pure
function of the response (strip then cleanup), so two calls with the
same inputs and the same remote response return the same text, and the
call never touches the pipeline; but on a successful nonempty response
it does update the dictionary service state, performing exactly the
usage-bump-and-save of _update_dictionary_usage, and leaves the state
unchanged only when the dictionary feature is disabled. -/
theorem transcribe_state_delta (d : DictState) (resp : ApiResponse)
    (t : String) (h : resp = ApiResponse.ok t) (ht : ¬ t = "") :
    (transcribeAudio d resp).text
        = String.mk (cleanupText (stripChars t.data)) ∧
    (transcribeAudio d resp).dict
        = updateDictUsage d (String.mk (cleanupText (stripChars t.data))) ∧
    (d.enabled = false → (transcribeAudio d resp).dict = d) := by
  subst h
  refine ⟨?_, ?_, ?_⟩
  · simp [transcribeAudio, ht]
  · simp [transcribeAudio, ht]
  · intro he
    simp [transcribeAudio, ht, updateDictUsage, he]

/-- Witness for transcribe_state_delta on a concrete response. -/
theorem transcribe_state_delta_w :
    (transcribeAudio exDict (ApiResponse.ok "東京です")).text
        = String.mk (cleanupText (stripChars "東京です".data)) ∧
    (transcribeAudio exDict (ApiResponse.ok "東京です")).dict
        = updateDictUsage exDict
            (String.mk (cleanupText (stripChars "東京です".data))) ∧
    (exDict.enabled = false →
        (transcribeAudio exDict (ApiResponse.ok "東京です")).dict = exDict) :=
  transcribe_state_delta exDict (ApiResponse.ok "東京です") "東京です" rfl
    (by decide)

end SpeechToText
